import Mathlib

/-!
Verification of the hoyaeats_api scraper.

This file shallowly embeds the two core modules of the repository:

* the nutrition-collection pipeline of src/api/scrape.ts
  (fetchNutrition, collectNutritionData), and
* the menu-page extractor and slug generator of src/hoyaeats_scheduler.ts
  (fetchLocationPage, generateSlug).

External collaborators (axios, cheerio HTML parsing, the Supabase blob
store, Math.random and the wall clock) are modelled as explicit
parameters; the control flow, counting, caching, retry and grouping
logic of the source is translated directly.  JavaScript objects used as
string-keyed maps are modelled as association lists with
insertion-order/upsert semantics, mirroring JS property-order rules for
the non-numeric keys the code uses.
-/

/-! ### JavaScript-style helpers -/

/-- Association-list lookup (models reading a property of a JS object used
as a map; keys are unique by construction in all uses). -/
def alookup {α β : Type} [DecidableEq α] : List (α × β) → α → Option β
  | [], _ => none
  | (k, v) :: rest, key => if k = key then some v else alookup rest key

/-- Property assignment on a JS object: an existing key keeps its position
and gets the new value, a new key is appended at the end. -/
def objInsert {α β : Type} [DecidableEq α] (c : List (α × β)) (k : α) (v : β) :
    List (α × β) :=
  if (alookup c k).isSome then c.map (fun p => if p.1 = k then (k, v) else p)
  else c ++ [(k, v)]

/-- In-place update of the value stored at a key (no-op when absent). -/
def objModify {α β : Type} [DecidableEq α] : List (α × β) → α → (β → β) → List (α × β)
  | [], _, _ => []
  | (k', v) :: rest, k, f =>
    if k' = k then (k, f v) :: objModify rest k f
    else (k', v) :: objModify rest k f

/-- Models `if (!obj[k]) obj[k] = v` for object-valued entries. -/
def objEnsure {α β : Type} [DecidableEq α] (c : List (α × β)) (k : α) (v : β) :
    List (α × β) :=
  if (alookup c k).isSome then c else c ++ [(k, v)]

/-- JS `Array.from(new Set(xs))`: first occurrences, in order.  The `seen`
accumulator holds the elements already emitted. -/
def dedupFirstAux : List Int → List Int → List Int
  | _, [] => []
  | seen, x :: xs =>
    if x ∈ seen then dedupFirstAux seen xs
    else x :: dedupFirstAux (x :: seen) xs

def dedupFirst (l : List Int) : List Int := dedupFirstAux [] l

/-- Splitting a list into consecutive slices of size n, as the source's
`for (i = 0; i < len; i += n) slice(i, i + n)` loops do.  The fuel is the
list length, which suffices for every positive n. -/
def chunksAux {α : Type} (n : Nat) : List α → Nat → List (List α)
  | l, 0 => if l.isEmpty then [] else [l]
  | l, fuel + 1 =>
    if l.isEmpty then [] else l.take n :: chunksAux n (l.drop n) fuel

def chunks {α : Type} (n : Nat) (l : List α) : List (List α) :=
  chunksAux n l l.length

/-- JS `parseInt(s, 10)` (decimal form, sufficient for every call site):
skip leading whitespace, optional sign, then the maximal digit run; `none`
models NaN. -/
def jsParseInt (s : String) : Option Int :=
  let cs := s.toList.dropWhile (fun c => c = ' ' ∨ c = '\t' ∨ c = '\n' ∨ c = '\r')
  let signed : Int × List Char :=
    match cs with
    | '-' :: t => (-1, t)
    | '+' :: t => (1, t)
    | _ => (1, cs)
  let digits := signed.2.takeWhile Char.isDigit
  if digits.isEmpty then none
  else some (signed.1 * ((digits.foldl (fun a c => a * 10 + (c.toNat - 48)) 0 : Nat) : Int))

/-- Substring occurrence over character lists (haystack, needle); an
empty needle always occurs, as in JS. -/
def hasSubstr : List Char → List Char → Bool
  | _, [] => true
  | [], _ :: _ => false
  | h :: t, n :: m => (n :: m : List Char).isPrefixOf (h :: t) || hasSubstr t (n :: m)

/-- JS `String.prototype.includes`. -/
def jsIncludes (s pat : String) : Bool := hasSubstr s.toList pat.toList

/-- JS `String.prototype.trim` (whitespace at both ends removed). -/
def jsTrim (s : String) : String :=
  String.mk (((s.toList.dropWhile Char.isWhitespace).reverse.dropWhile
    Char.isWhitespace).reverse)

/-- JS `String.prototype.replace` with a plain string pattern: only the
first occurrence is replaced. -/
def replaceFirst (s pat rep : String) : String :=
  match s.splitOn pat with
  | [] => s
  | [x] => x
  | x :: rest => x ++ rep ++ String.intercalate pat rest

/-! ### SlugGenerator (src/hoyaeats_scheduler.ts, generateSlug) -/

/-- Characters kept by the slug regex classes [a-z0-9]. -/
def isSlugChar (c : Char) : Bool :=
  ('a' ≤ c && c ≤ 'z') || ('0' ≤ c && c ≤ '9')

/-- One step of `replace(/[^a-z0-9]+/g, "-")`: classify a character. -/
def hyphenize (c : Char) : Char := if isSlugChar c then c else '-'

/-- Collapse adjacent hyphens, so that a run of replaced characters
becomes a single hyphen, completing the model of
`replace(/[^a-z0-9]+/g, "-")`. -/
def squeezeHyphens : List Char → List Char
  | [] => []
  | [a] => [a]
  | a :: b :: rest =>
    if a = '-' && b = '-' then squeezeHyphens (b :: rest)
    else a :: squeezeHyphens (b :: rest)

/-- JS `replace(/^-+|-+$/g, "")`. -/
def trimHyphens (l : List Char) : List Char :=
  ((l.dropWhile (· = '-')).reverse.dropWhile (· = '-')).reverse

/-- The name-derived portion of a slug: lower-case, collapse non-alnum
runs to single hyphens, trim boundary hyphens, truncate to 50
characters — lines 1081-1088 of src/hoyaeats_scheduler.ts. -/
def slugBase (name : String) : String :=
  String.mk ((trimHyphens (squeezeHyphens (name.toList.map
    (fun c => hyphenize c.toLower)))).take 50)

/-- JS `s.substring(Math.max(0, s.length - n))`. -/
def lastChars (n : Nat) (s : String) : String :=
  String.mk (s.toList.drop (s.toList.length - n))

/-- generateSlug (src/hoyaeats_scheduler.ts lines 1079-1109).  `rnd`
stands for the `Math.random().toString(36).substring(2, 8)` string used in
the empty-slug fallback. -/
def generateSlug (rnd : String) (name recipeId : String) : String :=
  let slug := slugBase name
  let slug := if recipeId ≠ "" ∧ recipeId ≠ "0"
    then slug ++ "-" ++ lastChars 6 recipeId else slug
  if slug = "" then "item-" ++ (if recipeId ≠ "" then recipeId else rnd) else slug

/-- Decides whether a string matches the anchored regex in the claim,
namely one or more characters drawn from [a-z0-9-]. -/
def matchesSlugPattern (s : String) : Bool :=
  !s.isEmpty && s.toList.all (fun c => isSlugChar c || c = '-')

/-! ### Nutrition pipeline data model (src/api/scrape.ts) -/

/-- A nutrition record: nutrient label mapped to its string value, the
`Record<string, string>` built by fetchNutrition. -/
abbrev NutrRecord := List (String × String)

/-- The nutrition cache, keyed by the recipe id (the source keys by
`recipeId.toString()`; toString on integers is injective, so keying by the
integer is equivalent). -/
abbrev Cache := List (Int × NutrRecord)

/-- Result record returned by collectNutritionData (interface
NutritionCollectorResult, src/api/scrape.ts lines 64-72). -/
structure NutritionCollectorResult where
  success : Bool
  totalRecipes : Nat
  fetchedCount : Nat
  skippedCount : Nat
  errorCount : Nat
  missingRecipes : List Int
  errors : List String
deriving DecidableEq

/-- One outcome of `axios.get` on the recipe endpoint plus the rest of the
try block, as seen by fetchNutrition:
a resolved `{success, html}` envelope, a rejected axios error with an
optional HTTP status and optional retry-after header, or a plain JS
error. -/
inductive NetOutcome where
  | reply (ok : Bool) (html : String)
  | axiosFail (status : Option Nat) (retryAfter : Option String) (msg : String)
  | jsError (msg : String)

/-- The external world of one run: the cheerio extraction of a nutrition
table (a pure function of the response html, lines 240-334 of the source,
not re-modelled here), the network response for a recipe id at a given
retry attempt, and the value of `Math.random() * 2` at each attempt. -/
structure FetchParams where
  extract : String → NutrRecord
  env : Int → Nat → NetOutcome
  jitter : Int → Nat → ℚ

/-- One wait inserted before a retry: the parsed retry-after value
(none models NaN from a malformed header) and the random jitter; the wait
in seconds is base + jitter, scaled by 1000 in the source. -/
structure WaitSpec where
  base : Option Int
  jitter : ℚ
deriving DecidableEq

/-- Observable outcome of one fetchNutrition call: the returned record or
the thrown message, the cache afterwards, the number of HTTP requests
issued, and the waits taken before retries. -/
structure FetchOut where
  result : Except String NutrRecord
  cache : Cache
  attempts : Nat
  waits : List WaitSpec

/-- The cache test at the top of fetchNutrition:
`nutritionCache[id] && Object.keys(nutritionCache[id]).length > 0`. -/
def usableCacheEntry (c : Cache) (recipeId : Int) : Bool :=
  match alookup c recipeId with
  | some r => !r.isEmpty
  | none => false

def fetchErrorPre (recipeId : Int) : String :=
  "Error fetching nutrition for recipe " ++ toString recipeId ++ ": "

/-- How `${err.response?.status}` prints. -/
def statusText : Option Nat → String
  | some n => toString n
  | none => "undefined"

/-- The message of the error thrown for a non-retried axios failure. -/
def fetchErrorText (recipeId : Int) (status : Option Nat) (msg : String) : String :=
  fetchErrorPre recipeId ++ "Status: " ++ statusText status ++ ", Message: " ++ msg

/-- Message thrown when the envelope fails `!data.success || !data.html`,
after passing through the catch block's `err instanceof Error` arm. -/
def invalidRespText (recipeId : Int) : String :=
  fetchErrorPre recipeId ++ "Invalid response format"

/-- The parse of `parseInt(headers["retry-after"] || "5", 10)`: a missing
or empty header falls back to the literal "5". -/
def retryAfterSeconds (hdr : Option String) : Option Int :=
  jsParseInt (match hdr with
    | none => "5"
    | some s => if s = "" then "5" else s)

/-- Terminal failure outcome of one attempt (429 with retries exhausted,
or any other axios status). -/
def fetchFailOut (recipeId : Int) (status : Option Nat) (msg : String)
    (cache : Cache) : FetchOut :=
  ⟨.error (fetchErrorText recipeId status msg), cache, 1, []⟩

/-- fetchNutrition (src/api/scrape.ts lines 212-379), with the recursion
on retries made structural through a gas argument.  The wrapper below
always supplies gas = 4 - retryCount; since the retry branch requires
retryCount < 3, gas is positive whenever that branch runs, so the gas-0
arm of the inner match (written as the terminal failure for definiteness)
is never reached. -/
def fetchNutritionGas (P : FetchParams) (recipeId : Int) (refresh : Bool) :
    Nat → Nat → Cache → FetchOut
  | gas, retryCount, cache =>
    if !refresh && usableCacheEntry cache recipeId then
      ⟨.ok ((alookup cache recipeId).getD []), cache, 0, []⟩
    else
      match P.env recipeId retryCount with
      | .reply ok html =>
        if !ok || html = "" then ⟨.error (invalidRespText recipeId), cache, 1, []⟩
        else
          let nutrition := P.extract html
          if nutrition.isEmpty then ⟨.ok nutrition, cache, 1, []⟩
          else ⟨.ok nutrition, objInsert cache recipeId nutrition, 1, []⟩
      | .axiosFail status hdr msg =>
        if status = some 404 then ⟨.ok [], cache, 1, []⟩
        else if status = some 429 ∧ retryCount < 3 then
          match gas with
          | gas' + 1 =>
            let w : WaitSpec := ⟨retryAfterSeconds hdr, P.jitter recipeId retryCount⟩
            let r := fetchNutritionGas P recipeId refresh gas' (retryCount + 1) cache
            ⟨r.result, r.cache, r.attempts + 1, w :: r.waits⟩
          | 0 => fetchFailOut recipeId status msg cache
        else fetchFailOut recipeId status msg cache
      | .jsError msg => ⟨.error (fetchErrorPre recipeId ++ msg), cache, 1, []⟩

def fetchNutrition (P : FetchParams) (recipeId : Int) (retryCount : Nat)
    (refresh : Bool) (cache : Cache) : FetchOut :=
  fetchNutritionGas P recipeId refresh (4 - retryCount) retryCount cache

/-! ### collectNutritionData (src/api/scrape.ts lines 382-518) -/

def CONCURRENT_REQUESTS : Nat := 5
def BATCH_SIZE : Nat := 25

/-- Mutable pieces of a run: the four counters and two diagnostic lists of
the result object, the cache, and a log of (recipe id, HTTP requests
issued) per fetchNutrition call, recording the network activity. -/
structure RunState where
  fetchedCount : Nat
  errorCount : Nat
  missingRecipes : List Int
  errors : List String
  cache : Cache
  attemptsLog : List (Int × Nat)

def initState (cache0 : Cache) : RunState := ⟨0, 0, [], [], cache0, []⟩

/-- The per-item diagnostic pushed onto result.errors. -/
def recipeErrorText (recipeId : Int) (msg : String) : String :=
  "Recipe " ++ toString recipeId ++ ": " ++ msg

/-- The body of the per-id task inside the mini-batch `Promise.all`
(lines 450-463): a normal return increments fetchedCount, a rejection
increments errorCount and records the id and message. -/
def processOne (P : FetchParams) (fr : Bool) (st : RunState) (recipeId : Int) :
    RunState :=
  let out := fetchNutrition P recipeId 0 fr st.cache
  match out.result with
  | .ok _ =>
    { st with fetchedCount := st.fetchedCount + 1, cache := out.cache,
              attemptsLog := st.attemptsLog ++ [(recipeId, out.attempts)] }
  | .error m =>
    { st with errorCount := st.errorCount + 1,
              missingRecipes := st.missingRecipes ++ [recipeId],
              errors := st.errors ++ [recipeErrorText recipeId m],
              cache := out.cache,
              attemptsLog := st.attemptsLog ++ [(recipeId, out.attempts)] }

def processIds (P : FetchParams) (fr : Bool) (ids : List Int) (st : RunState) :
    RunState :=
  ids.foldl (processOne P fr) st

/-- `Array.from(new Set(recipeIds)).filter(id => id > 0)` (line 405). -/
def uniqueRecipeIds (ids : List Int) : List Int :=
  (dedupFirst ids).filter (fun id => decide (0 < id))

/-- The ids actually sent to fetch (lines 408-412): under force-refresh
all unique ids, otherwise those with no cache entry at all (presence
test, independent of the entry being empty). -/
def recipeIdsToFetch (cache0 : Cache) (ids : List Int) (fr : Bool) : List Int :=
  if fr then uniqueRecipeIds ids
  else (uniqueRecipeIds ids).filter (fun id => (alookup cache0 id).isNone)

/-- The batch / mini-batch loops (lines 426-482): batches of 25, each
split into concurrency groups of 5; groups settle as a barrier, which the
per-group fold models (each id owns a distinct cache key, so the
interleaved group execution is observationally this fold). -/
def runLoopState (P : FetchParams) (fr : Bool) (toFetch : List Int)
    (cache0 : Cache) : RunState :=
  ((chunks BATCH_SIZE toFetch).map (chunks CONCURRENT_REQUESTS)).foldl
    (fun st minis => minis.foldl (fun s mini => processIds P fr mini s) st)
    (initState cache0)

/-- Full observable output of one collectNutritionData run. -/
structure RunOutput where
  result : NutritionCollectorResult
  cache : Cache
  attemptsLog : List (Int × Nat)
deriving DecidableEq

/-- collectNutritionData (src/api/scrape.ts lines 382-518).
cache0 is the mapping loadNutritionCache installed (its own failures
degrade to the empty mapping, so an arbitrary cache0 covers them);
saveErr is the outcome of saveNutritionCache after the batches, `some msg`
for a failed upload.  The try/catch around the body catches exactly the
save failure — every per-id error is already caught inside the loop — and
returns the partial result with a System error entry appended, so the
function is total. -/
def collectNutritionData (P : FetchParams) (cache0 : Cache)
    (saveErr : Option String) (recipeIds : List Int) (forceRefresh : Bool) :
    RunOutput :=
  let toFetch := recipeIdsToFetch cache0 recipeIds forceRefresh
  let unique := uniqueRecipeIds recipeIds
  if toFetch.isEmpty then
    ⟨{ success := true, totalRecipes := recipeIds.length, fetchedCount := 0,
       skippedCount := unique.length, errorCount := 0,
       missingRecipes := [], errors := [] }, cache0, []⟩
  else
    let st := runLoopState P forceRefresh toFetch cache0
    match saveErr with
    | some msg =>
      ⟨{ success := false, totalRecipes := recipeIds.length,
         fetchedCount := st.fetchedCount, skippedCount := 0,
         errorCount := st.errorCount, missingRecipes := st.missingRecipes,
         errors := st.errors ++ ["System error: " ++ msg] },
       st.cache, st.attemptsLog⟩
    | none =>
      ⟨{ success := decide ((st.errorCount : ℚ) < (toFetch.length : ℚ) / 2),
         totalRecipes := recipeIds.length, fetchedCount := st.fetchedCount,
         skippedCount := unique.length - toFetch.length,
         errorCount := st.errorCount, missingRecipes := st.missingRecipes,
         errors := st.errors }, st.cache, st.attemptsLog⟩

/-- An arbitrary sequence of direct fetchNutrition calls
(recipeId, retryCount, refresh), acting on the shared cache. -/
def fetchSeq (P : FetchParams) (calls : List (Int × Nat × Bool)) (c : Cache) :
    Cache :=
  calls.foldl (fun c call => (fetchNutrition P call.1 call.2.1 call.2.2 c).cache) c

/-- The invariant of claim C6: every record held in the cache is a
non-empty nutrient mapping. -/
def CacheOK (c : Cache) : Prop := ∀ p ∈ c, p.2 ≠ ([] : NutrRecord)

/-! ### MarkupExtractor (src/hoyaeats_scheduler.ts, fetchLocationPage) -/

/-- One `a.show-nutrition` element: its text, its data-recipe attribute,
its class attribute, and the text of the
`closest(".menu-station").find("button.toggle-menu-station-data")` button
(none when the selection is empty). -/
structure ItemEl where
  text : String
  dataRecipe : Option String
  classList : String
  station : Option String
deriving DecidableEq

/-- The parsed document, as far as fetchLocationPage inspects it:
the tab links (inner text, aria-controls attribute), the texts of all
section-heading elements in order, the items inside the element with a
given id (none when no element matches `#id`), the items inside the
`.next(".menu-category-list, .menu-items-wrapper")` sibling of the i-th
heading (none when that selection is empty), and all `a.show-nutrition`
items of the whole document in order. -/
structure Doc where
  tabs : List (String × Option String)
  headings : List String
  regionOf : String → Option (List ItemEl)
  sectionNext : Nat → Option (List ItemEl)
  items : List ItemEl

/-- FoodItem (src/hoyaeats_scheduler.ts lines 10-18). -/
structure FoodItem where
  name : String
  recipeId : Int
  vegetarian : Bool
  vegan : Bool
  glutenFree : Bool
  nutrition : NutrRecord
  timeFetched : String
deriving DecidableEq

structure StationData where
  items : List FoodItem
  itemIDs : List String
deriving DecidableEq

abbrev Stations := List (String × StationData)

abbrev MealPeriodsMap := List (String × Stations)

/-- Pair each element with its index, as `$(sel).each((index, el))`
does. -/
def enumIdx {α : Type} : Nat → List α → List (Nat × α)
  | _, [] => []
  | i, a :: as => (i, a) :: enumIdx (i + 1) as

/-- The location-derived default meal period (lines 336-342). -/
def defaultMealTime (location : String) : String :=
  if jsIncludes location "breakfast" then "Breakfast"
  else if jsIncludes location "lunch" then "Lunch"
  else if jsIncludes location "dinner" then "Dinner"
  else "All Day"

/-- The meal-period detection map (lines 302-348): tab links first, then
qualifying section headings, then the default entry. -/
def detectPeriods (doc : Doc) (location : String) : List (String × String) :=
  let tabMap := doc.tabs.foldl (fun m t =>
    let inner := jsTrim t.1
    if inner ≠ "" then
      let aria := t.2.getD ""
      if aria ≠ "" then objInsert m aria inner else m
    else m) []
  let m2 := if tabMap.isEmpty then
      (enumIdx 0 doc.headings).foldl (fun m p =>
        let hh := jsTrim p.2
        if hh ≠ "" ∧ ¬ jsIncludes hh "Menu" ∧ ¬ jsIncludes hh "Options" then
          objInsert m ("section-" ++ toString p.1) hh
        else m) []
    else tabMap
  if m2.isEmpty then objInsert m2 "default" (defaultMealTime location) else m2

/-- Resolution of the content region for one detected period
(lines 359-392): a tab id selects `#id`, a section id selects the heading's
next menu-list sibling, the default key selects the whole body; any
unresolvable or empty selection falls back to the whole document. -/
def regionItemsFor (doc : Doc) (tabId : String) : List ItemEl :=
  if tabId ≠ "default" ∧ ¬ tabId.startsWith "section-" then
    match doc.regionOf tabId with
    | some l => l
    | none => doc.items
  else if tabId.startsWith "section-" then
    match jsParseInt (replaceFirst tabId "section-" "") with
    | some i =>
      if 0 ≤ i ∧ i.toNat < doc.headings.length then
        match doc.sectionNext i.toNat with
        | some l => l
        | none => doc.items
      else doc.items
    | none => doc.items
  else doc.items

/-- The station of an item (lines 410-415). -/
def stationName (it : ItemEl) : String :=
  match it.station with
  | some s => jsTrim s
  | none => "Unknown"

/-- The FoodItem built for one marker (lines 398-434). -/
def toFoodItem (timeFetched : String) (it : ItemEl) : FoodItem :=
  { name := jsTrim it.text,
    recipeId := (jsParseInt (it.dataRecipe.getD "")).getD 0,
    vegetarian := jsIncludes it.classList "prop-vegetarian",
    vegan := jsIncludes it.classList "prop-vegan",
    glutenFree := jsIncludes it.classList "prop-made_without_gluten",
    nutrition := [],
    timeFetched := timeFetched }

/-- Appending one item to its station, creating the station on first use
(lines 417-441 and the same pattern at lines 485-505). -/
def pushToStation (sts : Stations) (station : String) (fi : FoodItem)
    (iid : String) : Stations :=
  match alookup sts station with
  | some _ =>
    objModify sts station
      (fun sd => { items := sd.items ++ [fi], itemIDs := sd.itemIDs ++ [iid] })
  | none => sts ++ [(station, { items := [fi], itemIDs := [iid] })]

/-- The body of the per-period loop (lines 351-443): initialize the
period, locate its region, and push every item found there. -/
def processPeriod (doc : Doc) (timeFetched rnd : String)
    (res : MealPeriodsMap) (entry : String × String) : MealPeriodsMap :=
  let tabId := entry.1
  let mealTime := entry.2
  let res := objEnsure res mealTime []
  (regionItemsFor doc tabId).foldl (fun res it =>
    objModify res mealTime (fun sts =>
      pushToStation sts (stationName it) (toFoodItem timeFetched it)
        (generateSlug rnd (jsTrim it.text) (it.dataRecipe.getD "")))) res

/-- The result of the main per-period loop. -/
def mainLoopResult (doc : Doc) (location timeFetched rnd : String) :
    MealPeriodsMap :=
  (detectPeriods doc location).foldl (processPeriod doc timeFetched rnd) []

/-- The final fallback (lines 446-512): when the aggregated result is
still empty, attach every marker of the document to the first detected
period name (or the default), grouped by station. -/
def finalFallback (doc : Doc) (location timeFetched rnd : String)
    (detected : List (String × String)) : MealPeriodsMap :=
  if doc.items.isEmpty then []
  else
    let v := ((detected.map Prod.snd).head?).getD ""
    let fallbackMealTime := if v = "" then defaultMealTime location else v
    let stationItems : Stations :=
      doc.items.foldl (fun sts it =>
        pushToStation sts (stationName it) (toFoodItem timeFetched it)
          (generateSlug rnd (jsTrim it.text) (it.dataRecipe.getD ""))) []
    [(fallbackMealTime, stationItems)]

/-- fetchLocationPage (src/hoyaeats_scheduler.ts lines 261-532), on its
non-error path (the catch that yields an empty mapping covers only
network/parse faults of the external fetch, outside this model). -/
def fetchLocationPage (doc : Doc) (location timeFetched rnd : String) :
    MealPeriodsMap :=
  let r := mainLoopResult doc location timeFetched rnd
  if r.isEmpty then finalFallback doc location timeFetched rnd (detectPeriods doc location)
  else r

/-- Membership of a food item in a station of a stations map. -/
def stationHas (sts : Stations) (station : String) (fi : FoodItem) : Prop :=
  ∃ sd, alookup sts station = some sd ∧ fi ∈ sd.items

/-! ### Concrete environments used by witnesses and counterexamples -/

/-- An environment whose nutrition lookups always fail with HTTP 404. -/
def envNotFound : FetchParams :=
  ⟨fun _ => [], fun _ _ => .axiosFail (some 404) none "Request failed with status code 404",
   fun _ _ => 0⟩

/-- An environment whose nutrition lookups always fail with HTTP 429 and
no retry-after header. -/
def envRateLimited : FetchParams :=
  ⟨fun _ => [], fun _ _ => .axiosFail (some 429) none "Too Many Requests",
   fun _ _ => 1⟩

/-- A document with no tabs, one non-qualifying heading, and one food
item, used to instantiate the extraction theorems. -/
def docLunch : Doc :=
  { tabs := [],
    headings := ["Menu"],
    regionOf := fun _ => none,
    sectionNext := fun _ => none,
    items := [⟨"Fried Egg", some "339", "show-nutrition prop-vegetarian", some "Grill"⟩] }

/-! ### Association-list and list lemmas -/

theorem mem_objInsert {α β : Type} [DecidableEq α] {c : List (α × β)} {k : α}
    {v : β} {p : α × β} (h : p ∈ objInsert c k v) : p = (k, v) ∨ p ∈ c := by
  unfold objInsert at h
  split at h
  · rcases List.mem_map.mp h with ⟨q, hq, hqe⟩
    by_cases hk : q.1 = k
    · simp [hk] at hqe; exact Or.inl hqe.symm
    · simp [hk] at hqe; exact Or.inr (hqe ▸ hq)
  · rcases List.mem_append.mp h with h | h
    · exact Or.inr h
    · simp at h; exact Or.inl h

theorem alookup_append {α β : Type} [DecidableEq α] (l₁ l₂ : List (α × β))
    (key : α) :
    alookup (l₁ ++ l₂) key =
      match alookup l₁ key with
      | some v => some v
      | none => alookup l₂ key := by
  induction l₁ with
  | nil => simp [alookup]
  | cons p rest ih =>
    rcases p with ⟨k, v⟩
    by_cases h : k = key <;> simp [alookup, h, ih]

theorem alookup_objModify_self {α β : Type} [DecidableEq α]
    (c : List (α × β)) (k : α) (f : β → β) :
    alookup (objModify c k f) k = (alookup c k).map f := by
  induction c with
  | nil => rfl
  | cons p rest ih =>
    rcases p with ⟨k', v⟩
    rw [objModify]
    by_cases h : k' = k
    · rw [if_pos h, alookup, if_pos rfl, alookup, if_pos h]; rfl
    · rw [if_neg h, alookup, if_neg h, alookup, if_neg h, ih]

theorem alookup_objModify_ne {α β : Type} [DecidableEq α]
    (c : List (α × β)) (k key : α) (f : β → β) (hne : key ≠ k) :
    alookup (objModify c k f) key = alookup c key := by
  induction c with
  | nil => rfl
  | cons p rest ih =>
    rcases p with ⟨k', v⟩
    rw [objModify]
    by_cases h : k' = k
    · rw [if_pos h, alookup, if_neg (Ne.symm hne), alookup,
        if_neg (fun hc : k' = key => hne (hc ▸ h)), ih]
    · rw [if_neg h, alookup, alookup, ih]

theorem mem_dedupFirstAux {seen l : List Int} {x : Int}
    (h : x ∈ dedupFirstAux seen l) : x ∈ l := by
  induction l generalizing seen with
  | nil => simp [dedupFirstAux] at h
  | cons a as ih =>
    rw [dedupFirstAux] at h
    split at h
    · exact List.mem_cons_of_mem _ (ih h)
    · rcases List.mem_cons.mp h with h | h
      · exact h ▸ List.mem_cons_self _ _
      · exact List.mem_cons_of_mem _ (ih h)

theorem dedupFirstAux_eq_self {l : List Int} (hnd : l.Nodup) :
    ∀ seen : List Int, (∀ x ∈ l, x ∉ seen) → dedupFirstAux seen l = l := by
  induction l with
  | nil => intro seen _; rfl
  | cons a as ih =>
    intro seen hs
    rw [dedupFirstAux, if_neg (hs a (List.mem_cons_self _ _))]
    rcases List.nodup_cons.mp hnd with ⟨ha, hnd'⟩
    congr 1
    refine ih hnd' _ ?_
    intro x hx
    simp only [List.mem_cons, not_or]
    exact ⟨fun he => ha (he ▸ hx), hs x (List.mem_cons_of_mem _ hx)⟩

theorem filter_dedupFirstAux (p : Int → Bool) :
    ∀ (l seen : List Int),
      (dedupFirstAux seen l).filter p = dedupFirstAux (seen.filter p) (l.filter p) := by
  intro l
  induction l with
  | nil => intro seen; rfl
  | cons a as ih =>
    intro seen
    rw [dedupFirstAux]
    by_cases ha : a ∈ seen
    · rw [if_pos ha]
      by_cases hp : p a
      · have : a ∈ seen.filter p := List.mem_filter.mpr ⟨ha, hp⟩
        simp [List.filter_cons, hp, dedupFirstAux, this, ih]
      · simp [List.filter_cons, hp, ih]
    · rw [if_neg ha]
      by_cases hp : p a
      · have : a ∉ seen.filter p := fun hc => ha (List.mem_filter.mp hc).1
        have step : (a :: as).filter p = a :: as.filter p := by
          simp [List.filter_cons, hp]
        rw [step, dedupFirstAux, if_neg this, List.filter_cons, if_pos hp]
        congr 1
        have : (a :: seen).filter p = a :: seen.filter p := by
          simp [List.filter_cons, hp]
        rw [ih, this]
      · have step : (a :: as).filter p = as.filter p := by
          simp [List.filter_cons, hp]
        rw [step, List.filter_cons, if_neg (by simpa using hp)]
        have : (a :: seen).filter p = seen.filter p := by
          simp [List.filter_cons, hp]
        rw [ih, this]

theorem chunksAux_flatten {α : Type} {n : Nat} (hn : 0 < n) :
    ∀ (fuel : Nat) (l : List α), l.length ≤ fuel →
      (chunksAux n l fuel).flatten = l := by
  intro fuel
  induction fuel with
  | zero =>
    intro l hl
    have : l = [] := List.eq_nil_of_length_eq_zero (Nat.le_zero.mp hl)
    subst this; rfl
  | succ f ih =>
    intro l hl
    rw [chunksAux]
    by_cases he : l.isEmpty
    · rw [if_pos he]
      simp [List.isEmpty_iff.mp he]
    · rw [if_neg he, List.flatten_cons]
      have hlen : (l.drop n).length ≤ f := by
        have h0 : l ≠ [] := fun hc => he (by simp [hc])
        have : 0 < l.length := List.length_pos.mpr h0
        rw [List.length_drop]
        omega
      rw [ih _ hlen, List.take_append_drop]

theorem chunks_flatten {α : Type} {n : Nat} (hn : 0 < n) (l : List α) :
    (chunks n l).flatten = l :=
  chunksAux_flatten hn l.length l le_rfl

theorem foldlExt {α β : Type} (f g : β → α → β) (l : List α)
    (h : ∀ s b, f s b = g s b) : ∀ s, l.foldl f s = l.foldl g s := by
  induction l with
  | nil => intro s; rfl
  | cons a as ih => intro s; rw [List.foldl_cons, List.foldl_cons, h, ih]

/-! ### Run-loop structure lemmas -/

theorem processIds_append (P : FetchParams) (fr : Bool) (a b : List Int)
    (st : RunState) :
    processIds P fr (a ++ b) st = processIds P fr b (processIds P fr a st) := by
  simp [processIds, List.foldl_append]

theorem processIds_flatten (P : FetchParams) (fr : Bool) :
    ∀ (bs : List (List Int)) (st : RunState),
      bs.foldl (fun s b => processIds P fr b s) st = processIds P fr bs.flatten st := by
  intro bs
  induction bs with
  | nil => intro st; rfl
  | cons b rest ih =>
    intro st
    rw [List.foldl_cons, ih, List.flatten_cons, processIds_append]

theorem runLoopState_eq (P : FetchParams) (fr : Bool) (l : List Int)
    (c : Cache) : runLoopState P fr l c = processIds P fr l (initState c) := by
  rw [runLoopState]
  have inner : ∀ (st : RunState) (b : List (List Int)),
      b.foldl (fun s mini => processIds P fr mini s) st = processIds P fr b.flatten st := by
    intro st b
    exact processIds_flatten P fr b st
  rw [foldlExt _ (fun st minis => processIds P fr minis.flatten st) _
    (fun s b => inner s b)]
  rw [List.foldl_map]
  rw [foldlExt _ (fun st b => processIds P fr b st) _
    (fun s b => by rw [chunks_flatten (by decide : 0 < CONCURRENT_REQUESTS)])]
  rw [processIds_flatten, chunks_flatten (by decide : 0 < BATCH_SIZE)]

theorem processOne_counts (P : FetchParams) (fr : Bool) (st : RunState)
    (id : Int) :
    (processOne P fr st id).fetchedCount + (processOne P fr st id).errorCount =
      st.fetchedCount + st.errorCount + 1 := by
  rw [processOne]
  rcases h : (fetchNutrition P id 0 fr st.cache).result with m | r <;> simp [h] <;> omega

theorem processIds_counts (P : FetchParams) (fr : Bool) :
    ∀ (ids : List Int) (st : RunState),
      (processIds P fr ids st).fetchedCount + (processIds P fr ids st).errorCount =
        st.fetchedCount + st.errorCount + ids.length := by
  intro ids
  induction ids with
  | nil => intro st; simp [processIds]
  | cons id rest ih =>
    intro st
    have h1 : processIds P fr (id :: rest) st =
        processIds P fr rest (processOne P fr st id) := rfl
    rw [h1, ih, processOne_counts]
    simp
    omega

/-! ### fetchNutrition surface lemmas -/

theorem fetchGas_unfold (P : FetchParams) (recipeId : Int) (refresh : Bool)
    (gas retryCount : Nat) (cache : Cache) :
    fetchNutritionGas P recipeId refresh gas retryCount cache =
      (if !refresh && usableCacheEntry cache recipeId then
        ⟨.ok ((alookup cache recipeId).getD []), cache, 0, []⟩
      else
        match P.env recipeId retryCount with
        | .reply ok html =>
          if !ok || html = "" then ⟨.error (invalidRespText recipeId), cache, 1, []⟩
          else
            let nutrition := P.extract html
            if nutrition.isEmpty then ⟨.ok nutrition, cache, 1, []⟩
            else ⟨.ok nutrition, objInsert cache recipeId nutrition, 1, []⟩
        | .axiosFail status hdr msg =>
          if status = some 404 then ⟨.ok [], cache, 1, []⟩
          else if status = some 429 ∧ retryCount < 3 then
            match gas with
            | gas' + 1 =>
              let w : WaitSpec := ⟨retryAfterSeconds hdr, P.jitter recipeId retryCount⟩
              let r := fetchNutritionGas P recipeId refresh gas' (retryCount + 1) cache
              ⟨r.result, r.cache, r.attempts + 1, w :: r.waits⟩
            | 0 => fetchFailOut recipeId status msg cache
          else fetchFailOut recipeId status msg cache
        | .jsError msg => ⟨.error (fetchErrorPre recipeId ++ msg), cache, 1, []⟩) := by
  rw [fetchNutritionGas]

/-- HTTP 404 at the current attempt: an empty record is returned, nothing
is thrown and the cache is untouched (src/api/scrape.ts lines 351-354). -/
theorem fetchNutrition_notFound (P : FetchParams) (recipeId : Int)
    (retryCount : Nat) (refresh : Bool) (cache : Cache)
    (hdr : Option String) (m : String)
    (henv : P.env recipeId retryCount = .axiosFail (some 404) hdr m)
    (hc : refresh = true ∨ usableCacheEntry cache recipeId = false) :
    fetchNutrition P recipeId retryCount refresh cache = ⟨.ok [], cache, 1, []⟩ := by
  rw [fetchNutrition, fetchGas_unfold]
  have hcond : (!refresh && usableCacheEntry cache recipeId) = false := by
    rcases hc with hc | hc <;> simp [hc]
  rw [hcond]
  simp [henv]

/-- HTTP 429 with attempts remaining: the call waits and retries with the
attempt counter advanced (src/api/scrape.ts lines 356-369). -/
theorem fetchNutrition_rateLimited_retry (P : FetchParams) (recipeId : Int)
    (retryCount : Nat) (cache : Cache) (hdr : Option String) (m : String)
    (hrc : retryCount < 3)
    (henv : P.env recipeId retryCount = .axiosFail (some 429) hdr m) :
    fetchNutrition P recipeId retryCount true cache =
      (let r := fetchNutrition P recipeId (retryCount + 1) true cache
       ⟨r.result, r.cache, r.attempts + 1,
        ⟨retryAfterSeconds hdr, P.jitter recipeId retryCount⟩ :: r.waits⟩) := by
  have hgas : 4 - retryCount = (4 - (retryCount + 1)) + 1 := by omega
  rw [fetchNutrition, hgas, fetchGas_unfold]
  simp only [Bool.not_true, Bool.false_and, Bool.false_eq_true, if_false, henv]
  rw [if_neg (by simp), if_pos ⟨trivial, hrc⟩]
  rfl

/-- HTTP 429 with retries exhausted: the diagnostic error is thrown
(src/api/scrape.ts lines 376-377). -/
theorem fetchNutrition_rateLimited_final (P : FetchParams) (recipeId : Int)
    (cache : Cache) (hdr : Option String) (m : String)
    (henv : P.env recipeId 3 = .axiosFail (some 429) hdr m) :
    fetchNutrition P recipeId 3 true cache =
      ⟨.error (fetchErrorText recipeId (some 429) m), cache, 1, []⟩ := by
  rw [fetchNutrition, fetchGas_unfold]
  simp only [Bool.not_true, Bool.false_and, Bool.false_eq_true, if_false, henv]
  rw [if_neg (by simp), if_neg (by simp)]
  rfl

/-- The cache after any fetchNutrition call is either unchanged or has a
single non-empty record upserted at the fetched id: the write at
src/api/scrape.ts lines 336-342 is guarded by the record being
non-empty. -/
theorem fetchGas_cache_cases (P : FetchParams) (recipeId : Int) (refresh : Bool) :
    ∀ (gas retryCount : Nat) (cache : Cache),
      (fetchNutritionGas P recipeId refresh gas retryCount cache).cache = cache ∨
      ∃ r : NutrRecord, r ≠ [] ∧
        (fetchNutritionGas P recipeId refresh gas retryCount cache).cache =
          objInsert cache recipeId r := by
  intro gas
  induction gas with
  | zero =>
    intro retryCount cache
    rw [fetchGas_unfold]
    split
    · exact Or.inl rfl
    · rcases henv : P.env recipeId retryCount with ⟨ok, html⟩ | ⟨status, hdr, msg⟩ | msg
      · by_cases hok : (!ok || html = "") = true
        · simp [hok]
        · simp only [hok, if_false, Bool.false_eq_true]
          by_cases hemp : (P.extract html).isEmpty
          · simp [hemp]
          · simp only [hemp, if_false, Bool.false_eq_true]
            exact Or.inr ⟨P.extract html, by simpa using hemp, rfl⟩
      · by_cases h404 : status = some 404
        · simp [h404]
        · by_cases h429 : status = some 429 ∧ retryCount < 3
          · simp [h404, h429, fetchFailOut]
          · simp [h404, h429, fetchFailOut]
      · exact Or.inl rfl
  | succ gas' ih =>
    intro retryCount cache
    rw [fetchGas_unfold]
    split
    · exact Or.inl rfl
    · rcases henv : P.env recipeId retryCount with ⟨ok, html⟩ | ⟨status, hdr, msg⟩ | msg
      · by_cases hok : (!ok || html = "") = true
        · simp [hok]
        · simp only [hok, if_false, Bool.false_eq_true]
          by_cases hemp : (P.extract html).isEmpty
          · simp [hemp]
          · simp only [hemp, if_false, Bool.false_eq_true]
            exact Or.inr ⟨P.extract html, by simpa using hemp, rfl⟩
      · by_cases h404 : status = some 404
        · simp [h404]
        · by_cases h429 : status = some 429 ∧ retryCount < 3
          · simp only [h404, if_false, h429, if_true, eq_self_iff_true]
            simpa using ih (retryCount + 1) cache
          · simp [h404, h429, fetchFailOut]
      · exact Or.inl rfl

theorem CacheOK_objInsert {c : Cache} {recipeId : Int} {r : NutrRecord}
    (hc : CacheOK c) (hr : r ≠ []) : CacheOK (objInsert c recipeId r) := by
  intro p hp
  rcases mem_objInsert hp with h | h
  · rw [h]; exact hr
  · exact hc p h

theorem processOne_CacheOK (P : FetchParams) (fr : Bool) (st : RunState)
    (id : Int) (h : CacheOK st.cache) : CacheOK (processOne P fr st id).cache := by
  have hcases := fetchGas_cache_cases P id fr (4 - 0) 0 st.cache
  have hout : CacheOK (fetchNutrition P id 0 fr st.cache).cache := by
    rcases hcases with hc | ⟨r, hr, hc⟩
    · rw [fetchNutrition, hc]; exact h
    · rw [fetchNutrition, hc]; exact CacheOK_objInsert h hr
  rw [processOne]
  rcases hres : (fetchNutrition P id 0 fr st.cache).result with m | r <;>
    simpa [hres] using hout

theorem processIds_CacheOK (P : FetchParams) (fr : Bool) :
    ∀ (ids : List Int) (st : RunState), CacheOK st.cache →
      CacheOK (processIds P fr ids st).cache := by
  intro ids
  induction ids with
  | nil => intro st h; exact h
  | cons id rest ih =>
    intro st h
    exact ih (processOne P fr st id) (processOne_CacheOK P fr st id h)

/-- Success-flag arithmetic: `errorCount < attempted / 2` in JS float
arithmetic is exactly 2 * errorCount < attempted over the integers. -/
theorem success_formula (e L : Nat) :
    (decide ((e : ℚ) < (L : ℚ) / 2) = true) ↔ 2 * e < L := by
  rw [decide_eq_true_iff]
  rw [lt_div_iff₀ (by norm_num : (0 : ℚ) < 2)]
  constructor
  · intro h
    have h2 : ((2 * e : ℕ) : ℚ) < (L : ℚ) := by push_cast; linarith
    exact_mod_cast h2
  · intro h
    have h2 : ((2 * e : ℕ) : ℚ) < (L : ℚ) := by exact_mod_cast h
    push_cast at h2
    linarith

/-! ### Slug lemmas -/

theorem mem_squeezeHyphens : ∀ (l : List Char), ∀ c ∈ squeezeHyphens l, c ∈ l
  | [] => by simp [squeezeHyphens]
  | [a] => by simp [squeezeHyphens]
  | a :: b :: rest => by
    intro c hc
    rw [squeezeHyphens] at hc
    split at hc
    · exact List.mem_cons_of_mem _ (mem_squeezeHyphens (b :: rest) c hc)
    · rcases List.mem_cons.mp hc with h | h
      · exact h ▸ List.mem_cons_self _ _
      · exact List.mem_cons_of_mem _ (mem_squeezeHyphens (b :: rest) c h)

theorem toList_mk (l : List Char) : (String.mk l).toList = l := rfl

theorem slugBase_chars (name : String) :
    ∀ c ∈ (slugBase name).toList, isSlugChar c = true ∨ c = '-' := by
  intro c hc
  rw [slugBase, toList_mk] at hc
  have hc2 := List.take_subset 50 _ hc
  rw [trimHyphens] at hc2
  have h4 := (List.mem_reverse).mp hc2
  have h5 := (List.dropWhile_sublist _).subset h4
  have h6 := (List.mem_reverse).mp h5
  have hc3 := (List.dropWhile_sublist _).subset h6
  have hc4 := mem_squeezeHyphens _ c hc3
  rcases List.mem_map.mp hc4 with ⟨d, _, hd⟩
  rw [← hd, hyphenize]
  by_cases h : isSlugChar d.toLower
  · rw [if_pos h]; exact Or.inl h
  · rw [if_neg h]; exact Or.inr rfl

theorem slugBase_length (name : String) : (slugBase name).toList.length ≤ 50 :=
  List.length_take_le 50 _

theorem matchesSlugPattern_of (s : String) (hne : s ≠ "")
    (hall : ∀ c ∈ s.toList, isSlugChar c = true ∨ c = '-') :
    matchesSlugPattern s = true := by
  rw [matchesSlugPattern, Bool.and_eq_true, List.all_eq_true]
  refine ⟨?_, ?_⟩
  · have : s.isEmpty = false := by
      by_contra h
      exact hne ((String.isEmpty_iff s).mp (Bool.not_eq_false s.isEmpty ▸ h))
    simp [this]
  · intro c hc
    rcases hall c hc with h | h <;> simp [h]

theorem toList_strAppend (a b : String) : (a ++ b).toList = a.toList ++ b.toList :=
  String.data_append a b

/-! ### Extraction lemmas -/

theorem pushToStation_self (sts : Stations) (s : String) (fi : FoodItem)
    (iid : String) : stationHas (pushToStation sts s fi iid) s fi := by
  rw [pushToStation]
  rcases h : alookup sts s with _ | sd
  · refine ⟨{ items := [fi], itemIDs := [iid] }, ?_, List.mem_singleton_self fi⟩
    rw [alookup_append, h]
    simp [alookup]
  · refine ⟨{ items := sd.items ++ [fi], itemIDs := sd.itemIDs ++ [iid] }, ?_, ?_⟩
    · rw [alookup_objModify_self, h]; rfl
    · simp

theorem pushToStation_preserve (sts : Stations) (s s' : String)
    (fi fi' : FoodItem) (iid : String) (h : stationHas sts s' fi') :
    stationHas (pushToStation sts s fi iid) s' fi' := by
  rcases h with ⟨sd', hl, hm⟩
  rw [pushToStation]
  rcases h : alookup sts s with _ | sd
  · refine ⟨sd', ?_, hm⟩
    rw [alookup_append, hl]
  · by_cases he : s' = s
    · subst he
      rw [hl] at h
      cases h
      refine ⟨{ items := sd'.items ++ [fi], itemIDs := sd'.itemIDs ++ [iid] }, ?_, ?_⟩
      · rw [alookup_objModify_self, hl]; rfl
      · exact List.mem_append_left _ hm
    · exact ⟨sd', by rw [alookup_objModify_ne _ _ _ _ he, hl], hm⟩

theorem foldItems_single (mealTime timeFetched rnd : String) :
    ∀ (its : List ItemEl) (sts : Stations),
      ∃ sts',
        its.foldl (fun res it =>
          objModify res mealTime (fun s =>
            pushToStation s (stationName it) (toFoodItem timeFetched it)
              (generateSlug rnd (jsTrim it.text) (it.dataRecipe.getD ""))))
            [(mealTime, sts)] = [(mealTime, sts')] ∧
        (∀ it ∈ its, stationHas sts' (stationName it) (toFoodItem timeFetched it)) ∧
        (∀ s fi, stationHas sts s fi → stationHas sts' s fi) := by
  intro its
  induction its with
  | nil =>
    intro sts
    exact ⟨sts, rfl, by simp, fun s fi h => h⟩
  | cons it rest ih =>
    intro sts
    have hstep : objModify [(mealTime, sts)] mealTime (fun s =>
        pushToStation s (stationName it) (toFoodItem timeFetched it)
          (generateSlug rnd (jsTrim it.text) (it.dataRecipe.getD ""))) =
        [(mealTime, pushToStation sts (stationName it) (toFoodItem timeFetched it)
          (generateSlug rnd (jsTrim it.text) (it.dataRecipe.getD "")))] := by
      simp [objModify]
    rcases ih (pushToStation sts (stationName it) (toFoodItem timeFetched it)
      (generateSlug rnd (jsTrim it.text) (it.dataRecipe.getD ""))) with ⟨sts', h1, h2, h3⟩
    refine ⟨sts', ?_, ?_, ?_⟩
    · rw [List.foldl_cons, hstep, h1]
    · intro it' hit'
      rcases List.mem_cons.mp hit' with he | hm
      · subst he
        exact h3 _ _ (pushToStation_self _ _ _ _)
      · exact h2 it' hm
    · intro s fi h
      exact h3 s fi (pushToStation_preserve _ _ _ _ _ _ h)

theorem objModify_length {α β : Type} [DecidableEq α]
    (c : List (α × β)) (k : α) (f : β → β) :
    (objModify c k f).length = c.length := by
  induction c with
  | nil => rfl
  | cons p rest ih =>
    rcases p with ⟨k', v⟩
    rw [objModify]
    by_cases h : k' = k <;> simp [h, ih]

theorem objEnsure_ne_nil {α β : Type} [DecidableEq α]
    (c : List (α × β)) (k : α) (v : β) : objEnsure c k v ≠ [] := by
  rw [objEnsure]
  split
  · intro hc
    subst hc
    simp [alookup] at *
  · simp

theorem foldl_objModify_ne_nil {α β γ : Type} [DecidableEq α] (k : α)
    (g : γ → β → β) :
    ∀ (its : List γ) (res : List (α × β)), res ≠ [] →
      its.foldl (fun r it => objModify r k (g it)) res ≠ [] := by
  intro its
  induction its with
  | nil => intro res h; exact h
  | cons it rest ih =>
    intro res h
    rw [List.foldl_cons]
    refine ih _ ?_
    intro hc
    have := objModify_length res k (g it)
    rw [hc] at this
    exact h (List.eq_nil_of_length_eq_zero this.symm)

theorem processPeriod_ne_nil (doc : Doc) (timeFetched rnd : String)
    (res : MealPeriodsMap) (entry : String × String) :
    processPeriod doc timeFetched rnd res entry ≠ [] := by
  rw [processPeriod]
  exact foldl_objModify_ne_nil entry.2
    (fun it sts =>
      pushToStation sts (stationName it) (toFoodItem timeFetched it)
        (generateSlug rnd (jsTrim it.text) (it.dataRecipe.getD "")))
    (regionItemsFor doc entry.1) _ (objEnsure_ne_nil res entry.2 [])

theorem objInsert_ne_nil {α β : Type} [DecidableEq α] (c : List (α × β))
    (k : α) (v : β) : objInsert c k v ≠ [] := by
  rw [objInsert]
  split
  · rename_i hs
    intro hc
    rw [List.map_eq_nil_iff] at hc
    subst hc
    simp [alookup] at hs
  · simp

theorem ensureDefault_ne_nil (X : List (String × String)) (v : String) :
    (if X.isEmpty then objInsert X "default" v else X) ≠ [] := by
  by_cases h : X.isEmpty
  · rw [if_pos h]
    exact objInsert_ne_nil X "default" v
  · rw [if_neg h]
    exact fun hc => h (by rw [hc]; rfl)

theorem detectPeriods_ne_nil (doc : Doc) (location : String) :
    detectPeriods doc location ≠ [] := by
  rw [detectPeriods]
  exact ensureDefault_ne_nil _ _

theorem foldl_processPeriod_ne_nil (doc : Doc) (timeFetched rnd : String) :
    ∀ (es : List (String × String)) (r : MealPeriodsMap), r ≠ [] →
      es.foldl (processPeriod doc timeFetched rnd) r ≠ [] := by
  intro es
  induction es with
  | nil => intro r h; exact h
  | cons e es ih =>
    intro r _
    rw [List.foldl_cons]
    exact ih _ (processPeriod_ne_nil doc timeFetched rnd r e)

theorem mainLoopResult_ne_nil (doc : Doc) (location timeFetched rnd : String) :
    mainLoopResult doc location timeFetched rnd ≠ [] := by
  rw [mainLoopResult]
  rcases List.exists_cons_of_ne_nil (detectPeriods_ne_nil doc location) with ⟨d, ds, hd⟩
  rw [hd, List.foldl_cons]
  exact foldl_processPeriod_ne_nil doc timeFetched rnd ds _
    (processPeriod_ne_nil doc timeFetched rnd [] d)

/-! ### Claim C3: slug well-formedness -/

theorem str_ne_empty_of_toList_ne_nil (s : String) (h : s.toList ≠ []) :
    s ≠ "" := fun hc => h (by rw [hc]; rfl)

theorem allSlugChars_append (a b : String)
    (ha : ∀ c ∈ a.toList, isSlugChar c = true ∨ c = '-')
    (hb : ∀ c ∈ b.toList, isSlugChar c = true ∨ c = '-') :
    ∀ c ∈ (a ++ b).toList, isSlugChar c = true ∨ c = '-' := by
  intro c hc
  rw [toList_strAppend] at hc
  rcases List.mem_append.mp hc with h | h
  · exact ha c h
  · exact hb c h

theorem lastChars_subset (n : Nat) (s : String) :
    ∀ c ∈ (lastChars n s).toList, c ∈ s.toList := by
  intro c hc
  rw [lastChars, toList_mk] at hc
  exact List.drop_subset _ _ hc

/-- Claim C3, counterexample: for the recipe-id string consisting of the
single character '#', generateSlug returns "-#", which does not match
the pattern [a-z0-9-]+ — the raw id suffix is appended unsanitized, so
the claim's for-all-inputs regex property fails. -/
theorem slug_pattern_counterexample :
    generateSlug "abc123" "" "#" = "-#" ∧
    matchesSlugPattern "-#" = false := by
  constructor <;> decide

/-- Claim C3 (amended): for recipe-id strings (and random fallback
strings) drawn from [a-z0-9] — as the string form of an integer id always
is — generateSlug matches [a-z0-9-]+, its name-derived portion is at most
50 characters before any id suffix, the last-6-character id suffix is
appended exactly when the id string is non-empty and not the literal "0",
and an otherwise empty result falls back to item-(recipeId or random). -/
theorem generateSlug_wellformed (rnd name recipeId : String)
    (hrid : ∀ c ∈ recipeId.toList, isSlugChar c = true)
    (hrnd : ∀ c ∈ rnd.toList, isSlugChar c = true) :
    matchesSlugPattern (generateSlug rnd name recipeId) = true ∧
    (slugBase name).toList.length ≤ 50 ∧
    (recipeId ≠ "" ∧ recipeId ≠ "0" →
      generateSlug rnd name recipeId =
        slugBase name ++ "-" ++ lastChars 6 recipeId) ∧
    ((recipeId = "" ∨ recipeId = "0") →
      generateSlug rnd name recipeId =
        if slugBase name = "" then
          "item-" ++ (if recipeId ≠ "" then recipeId else rnd)
        else slugBase name) := by
  have hbase := slugBase_chars name
  have hitem : ∀ c ∈ ("item-" : String).toList, isSlugChar c = true ∨ c = '-' := by
    decide
  have hhyph : ∀ c ∈ ("-" : String).toList, isSlugChar c = true ∨ c = '-' := by
    decide
  have hlast : ∀ c ∈ (lastChars 6 recipeId).toList, isSlugChar c = true ∨ c = '-' :=
    fun c hc => Or.inl (hrid c (lastChars_subset 6 recipeId c hc))
  by_cases hcond : recipeId ≠ "" ∧ recipeId ≠ "0"
  · have hform : generateSlug rnd name recipeId =
        slugBase name ++ "-" ++ lastChars 6 recipeId := by
      rw [generateSlug]
      simp only [hcond, if_true, if_pos hcond]
      rw [if_neg]
      apply str_ne_empty_of_toList_ne_nil
      rw [toList_strAppend, toList_strAppend]
      simp
    refine ⟨?_, slugBase_length name, fun _ => hform, fun hc => absurd hc (by tauto)⟩
    rw [hform]
    apply matchesSlugPattern_of
    · apply str_ne_empty_of_toList_ne_nil
      rw [toList_strAppend, toList_strAppend]
      simp
    · exact allSlugChars_append _ _ (allSlugChars_append _ _ hbase hhyph) hlast
  · have hform : generateSlug rnd name recipeId =
        if slugBase name = "" then
          "item-" ++ (if recipeId ≠ "" then recipeId else rnd)
        else slugBase name := by
      rw [generateSlug]
      simp only [if_neg hcond]
    refine ⟨?_, slugBase_length name, fun hc => absurd hc hcond, fun _ => hform⟩
    rw [hform]
    by_cases hb : slugBase name = ""
    · rw [if_pos hb]
      apply matchesSlugPattern_of
      · apply str_ne_empty_of_toList_ne_nil
        rw [toList_strAppend]
        simp [show ("item-" : String).toList = ['i','t','e','m','-'] from rfl]
      · refine allSlugChars_append _ _ hitem ?_
        by_cases hr : recipeId ≠ ""
        · rw [if_pos hr]; exact fun c hc => Or.inl (hrid c hc)
        · rw [if_neg hr]; exact fun c hc => Or.inl (hrnd c hc)
    · rw [if_neg hb]
      exact matchesSlugPattern_of _ hb hbase

/-- Witness for the amended claim C3 at concrete inputs. -/
theorem generateSlug_wellformed_witness :
    matchesSlugPattern (generateSlug "q7x2ab" "Fried Egg!!" "339") = true ∧
    (slugBase "Fried Egg!!").toList.length ≤ 50 ∧
    ("339" ≠ "" ∧ "339" ≠ "0" →
      generateSlug "q7x2ab" "Fried Egg!!" "339" =
        slugBase "Fried Egg!!" ++ "-" ++ lastChars 6 "339") ∧
    (("339" : String) = "" ∨ ("339" : String) = "0" →
      generateSlug "q7x2ab" "Fried Egg!!" "339" =
        if slugBase "Fried Egg!!" = "" then
          "item-" ++ (if "339" ≠ "" then "339" else "q7x2ab")
        else slugBase "Fried Egg!!") :=
  generateSlug_wellformed "q7x2ab" "Fried Egg!!" "339" (by decide) (by decide)

/-! ### Claim C1: HTTP 404 handling -/

/-- Claim C1, counterexample: running collectNutritionData on the single
id 7, whose lookup returns HTTP 404, yields fetchedCount = 1 — the
mini-batch task increments fetchedCount for every non-throwing fetch,
including the 404 path — so the claim that fetchedCount is unchanged by
such an id is false (errorCount and missingRecipes are indeed
untouched). -/
theorem notFound_claim_counterexample :
    (collectNutritionData envNotFound [] none [7] false).result.fetchedCount = 1 ∧
    (collectNutritionData envNotFound [] none [7] false).result.errorCount = 0 ∧
    (collectNutritionData envNotFound [] none [7] false).result.missingRecipes = [] ∧
    ¬ (collectNutritionData envNotFound [] none [7] false).result.fetchedCount = 0 := by
  refine ⟨?_, ?_, ?_, ?_⟩ <;> decide

/-- Claim C1 (amended): for every recipe id whose nutrition lookup
returns HTTP 404, the fetch yields an empty record, the cache is left
unchanged, the id is counted as neither an error nor appended to
missingRecipes — but fetchedCount is incremented by exactly 1 for that
id (the run counts every non-throwing lookup as fetched), and the
remaining ids still run. -/
theorem notFound_fetch_effect (P : FetchParams) (recipeId : Int) (fr : Bool)
    (st : RunState) (rest : List Int) (hdr : Option String) (m : String)
    (henv : P.env recipeId 0 = .axiosFail (some 404) hdr m)
    (hc : fr = true ∨ usableCacheEntry st.cache recipeId = false) :
    fetchNutrition P recipeId 0 fr st.cache = ⟨.ok [], st.cache, 1, []⟩ ∧
    processIds P fr (recipeId :: rest) st =
      processIds P fr rest
        { st with fetchedCount := st.fetchedCount + 1,
                  attemptsLog := st.attemptsLog ++ [(recipeId, 1)] } := by
  have hf := fetchNutrition_notFound P recipeId 0 fr st.cache hdr m henv hc
  refine ⟨hf, ?_⟩
  have hone : processOne P fr st recipeId =
      { st with fetchedCount := st.fetchedCount + 1,
                attemptsLog := st.attemptsLog ++ [(recipeId, 1)] } := by
    rw [processOne, hf]
  show processIds P fr rest (processOne P fr st recipeId) = _
  rw [hone]

/-- Witness for the amended claim C1 at a concrete 404 environment. -/
theorem notFound_fetch_effect_witness :
    fetchNutrition envNotFound 3 0 false [] = ⟨.ok [], [], 1, []⟩ :=
  (notFound_fetch_effect envNotFound 3 false (initState []) [] none
    "Request failed with status code 404" rfl (Or.inr rfl)).1

/-! ### Claim C4: HTTP 429 retry discipline -/

/-- Claim C4: an id whose lookup always returns HTTP 429 is attempted
exactly 4 times (1 initial + 3 retries) under force-refresh; each of the
three waits is the parsed retry-after value (5 when the header is
absent) plus that attempt's random jitter, which lies in [0, 2) whenever
the jitter source does; afterwards the id is appended to missingRecipes,
the diagnostic is appended to errors, errorCount rises by exactly 1, the
cache is untouched, and the remaining ids in the batch still run. -/
theorem rateLimited_four_attempts (P : FetchParams) (recipeId : Int)
    (st : RunState) (rest : List Int) (hdr : Nat → Option String)
    (msg : Nat → String)
    (henv : ∀ k, P.env recipeId k = .axiosFail (some 429) (hdr k) (msg k))
    (hjit : ∀ k, 0 ≤ P.jitter recipeId k ∧ P.jitter recipeId k < 2) :
    (fetchNutrition P recipeId 0 true st.cache).attempts = 4 ∧
    (fetchNutrition P recipeId 0 true st.cache).result =
      .error (fetchErrorText recipeId (some 429) (msg 3)) ∧
    (fetchNutrition P recipeId 0 true st.cache).cache = st.cache ∧
    (fetchNutrition P recipeId 0 true st.cache).waits =
      [⟨retryAfterSeconds (hdr 0), P.jitter recipeId 0⟩,
       ⟨retryAfterSeconds (hdr 1), P.jitter recipeId 1⟩,
       ⟨retryAfterSeconds (hdr 2), P.jitter recipeId 2⟩] ∧
    (∀ k, hdr k = none → retryAfterSeconds (hdr k) = some 5) ∧
    (∀ w ∈ (fetchNutrition P recipeId 0 true st.cache).waits,
       0 ≤ w.jitter ∧ w.jitter < 2) ∧
    processIds P true (recipeId :: rest) st =
      processIds P true rest
        { st with errorCount := st.errorCount + 1,
                  missingRecipes := st.missingRecipes ++ [recipeId],
                  errors := st.errors ++
                    [recipeErrorText recipeId
                      (fetchErrorText recipeId (some 429) (msg 3))],
                  attemptsLog := st.attemptsLog ++ [(recipeId, 4)] } := by
  have h3 := fetchNutrition_rateLimited_final P recipeId st.cache (hdr 3) (msg 3) (henv 3)
  have h2 := fetchNutrition_rateLimited_retry P recipeId 2 st.cache (hdr 2) (msg 2)
    (by omega) (henv 2)
  have h1 := fetchNutrition_rateLimited_retry P recipeId 1 st.cache (hdr 1) (msg 1)
    (by omega) (henv 1)
  have h0 := fetchNutrition_rateLimited_retry P recipeId 0 st.cache (hdr 0) (msg 0)
    (by omega) (henv 0)
  have hfull : fetchNutrition P recipeId 0 true st.cache =
      ⟨.error (fetchErrorText recipeId (some 429) (msg 3)), st.cache, 4,
       [⟨retryAfterSeconds (hdr 0), P.jitter recipeId 0⟩,
        ⟨retryAfterSeconds (hdr 1), P.jitter recipeId 1⟩,
        ⟨retryAfterSeconds (hdr 2), P.jitter recipeId 2⟩]⟩ := by
    rw [h0, h1, h2, h3]
  refine ⟨by rw [hfull], by rw [hfull], by rw [hfull], by rw [hfull],
    ?_, ?_, ?_⟩
  · intro k hk
    rw [hk]
    decide
  · intro w hw
    rw [hfull] at hw
    simp only [List.mem_cons, List.not_mem_nil, or_false] at hw
    rcases hw with hw | hw | hw
    · rw [hw]; exact hjit 0
    · rw [hw]; exact hjit 1
    · rw [hw]; exact hjit 2
  · have hone : processOne P true st recipeId =
        { st with errorCount := st.errorCount + 1,
                  missingRecipes := st.missingRecipes ++ [recipeId],
                  errors := st.errors ++
                    [recipeErrorText recipeId
                      (fetchErrorText recipeId (some 429) (msg 3))],
                  attemptsLog := st.attemptsLog ++ [(recipeId, 4)] } := by
      rw [processOne, hfull]
    show processIds P true rest (processOne P true st recipeId) = _
    rw [hone]

/-- Witness for claim C4 at a concrete always-429 environment. -/
theorem rateLimited_four_attempts_witness :
    (fetchNutrition envRateLimited 9 0 true []).attempts = 4 ∧
    (fetchNutrition envRateLimited 9 0 true []).result =
      .error (fetchErrorText 9 (some 429) "Too Many Requests") ∧
    (fetchNutrition envRateLimited 9 0 true []).cache = [] ∧
    (fetchNutrition envRateLimited 9 0 true []).waits =
      [⟨retryAfterSeconds none, envRateLimited.jitter 9 0⟩,
       ⟨retryAfterSeconds none, envRateLimited.jitter 9 1⟩,
       ⟨retryAfterSeconds none, envRateLimited.jitter 9 2⟩] ∧
    (∀ _k : Nat, (none : Option String) = none →
      retryAfterSeconds none = some 5) ∧
    (∀ w ∈ (fetchNutrition envRateLimited 9 0 true []).waits,
      0 ≤ w.jitter ∧ w.jitter < 2) ∧
    processIds envRateLimited true [9] (initState []) =
      processIds envRateLimited true []
        ⟨0, 1, [(9 : Int)],
         [recipeErrorText 9 (fetchErrorText 9 (some 429) "Too Many Requests")],
         [], [((9 : Int), 4)]⟩ :=
  rateLimited_four_attempts envRateLimited 9 (initState []) []
    (fun _ => none) (fun _ => "Too Many Requests") (fun _ => rfl)
    (fun _ => ⟨by norm_num [envRateLimited], by norm_num [envRateLimited]⟩)

/-! ### Claims C5, C7, C2, C10, C6: collectNutritionData behaviour -/

theorem collect_run_none (P : FetchParams) (cache0 : Cache) (ids : List Int)
    (fr : Bool) (h : recipeIdsToFetch cache0 ids fr ≠ []) :
    collectNutritionData P cache0 none ids fr =
      ⟨{ success := decide
            (((runLoopState P fr (recipeIdsToFetch cache0 ids fr) cache0).errorCount : ℚ) <
              ((recipeIdsToFetch cache0 ids fr).length : ℚ) / 2),
         totalRecipes := ids.length,
         fetchedCount := (runLoopState P fr (recipeIdsToFetch cache0 ids fr) cache0).fetchedCount,
         skippedCount := (uniqueRecipeIds ids).length - (recipeIdsToFetch cache0 ids fr).length,
         errorCount := (runLoopState P fr (recipeIdsToFetch cache0 ids fr) cache0).errorCount,
         missingRecipes := (runLoopState P fr (recipeIdsToFetch cache0 ids fr) cache0).missingRecipes,
         errors := (runLoopState P fr (recipeIdsToFetch cache0 ids fr) cache0).errors },
       (runLoopState P fr (recipeIdsToFetch cache0 ids fr) cache0).cache,
       (runLoopState P fr (recipeIdsToFetch cache0 ids fr) cache0).attemptsLog⟩ := by
  rw [collectNutritionData]
  rw [if_neg (fun hc => h (List.isEmpty_iff.mp hc))]

theorem collect_run_some (P : FetchParams) (cache0 : Cache) (ids : List Int)
    (fr : Bool) (emsg : String) (h : recipeIdsToFetch cache0 ids fr ≠ []) :
    collectNutritionData P cache0 (some emsg) ids fr =
      ⟨{ success := false,
         totalRecipes := ids.length,
         fetchedCount := (runLoopState P fr (recipeIdsToFetch cache0 ids fr) cache0).fetchedCount,
         skippedCount := 0,
         errorCount := (runLoopState P fr (recipeIdsToFetch cache0 ids fr) cache0).errorCount,
         missingRecipes := (runLoopState P fr (recipeIdsToFetch cache0 ids fr) cache0).missingRecipes,
         errors := (runLoopState P fr (recipeIdsToFetch cache0 ids fr) cache0).errors ++
           ["System error: " ++ emsg] },
       (runLoopState P fr (recipeIdsToFetch cache0 ids fr) cache0).cache,
       (runLoopState P fr (recipeIdsToFetch cache0 ids fr) cache0).attemptsLog⟩ := by
  rw [collectNutritionData]
  rw [if_neg (fun hc => h (List.isEmpty_iff.mp hc))]

/-- Claim C5: success is computed as errorCount < attempted / 2 where
attempted is the number of ids actually sent to fetch; every attempted id
lands in exactly one of fetchedCount and errorCount; skippedCount is the
number of unique ids not sent; and when exactly 5 ids are attempted,
success holds exactly when errorCount is at most 2. -/
theorem collect_success_threshold (P : FetchParams) (cache0 : Cache)
    (ids : List Int) (fr : Bool)
    (h : recipeIdsToFetch cache0 ids fr ≠ []) :
    (collectNutritionData P cache0 none ids fr).result.fetchedCount +
      (collectNutritionData P cache0 none ids fr).result.errorCount =
        (recipeIdsToFetch cache0 ids fr).length ∧
    (collectNutritionData P cache0 none ids fr).result.skippedCount =
      (uniqueRecipeIds ids).length - (recipeIdsToFetch cache0 ids fr).length ∧
    ((collectNutritionData P cache0 none ids fr).result.success = true ↔
      2 * (collectNutritionData P cache0 none ids fr).result.errorCount <
        (recipeIdsToFetch cache0 ids fr).length) ∧
    ((recipeIdsToFetch cache0 ids fr).length = 5 →
      ((collectNutritionData P cache0 none ids fr).result.success = true ↔
        (collectNutritionData P cache0 none ids fr).result.errorCount ≤ 2)) := by
  rw [collect_run_none P cache0 ids fr h]
  have hcounts := processIds_counts P fr (recipeIdsToFetch cache0 ids fr)
    (initState cache0)
  rw [runLoopState_eq]
  dsimp only
  refine ⟨?_, rfl, ?_, ?_⟩
  · simpa [initState] using hcounts
  · exact success_formula _ _
  · intro h5
    rw [h5, success_formula]
    omega

/-- Witness for claim C5: the five distinct ids of the spec's end-to-end
example against an empty cache, under an all-404 environment. -/
theorem collect_success_threshold_witness :
    (collectNutritionData envNotFound [] none [10, 17, 20, 37, 38] false).result.fetchedCount +
      (collectNutritionData envNotFound [] none [10, 17, 20, 37, 38] false).result.errorCount = 5 ∧
    (collectNutritionData envNotFound [] none [10, 17, 20, 37, 38] false).result.skippedCount = 0 ∧
    ((collectNutritionData envNotFound [] none [10, 17, 20, 37, 38] false).result.success = true ↔
      2 * (collectNutritionData envNotFound [] none [10, 17, 20, 37, 38] false).result.errorCount < 5) ∧
    ((5 : Nat) = 5 →
      ((collectNutritionData envNotFound [] none [10, 17, 20, 37, 38] false).result.success = true ↔
        (collectNutritionData envNotFound [] none [10, 17, 20, 37, 38] false).result.errorCount ≤ 2)) :=
  collect_success_threshold envNotFound [] [10, 17, 20, 37, 38] false (by decide)

/-- Claim C7: for distinct positive ids all holding a usable (non-empty)
cache entry, a non-forced run skips them all: skippedCount equals the
size of the set, no network request is issued (empty attempts log), and
fetchedCount and errorCount are both zero. -/
theorem cached_ids_all_skipped (P : FetchParams) (saveErr : Option String)
    (cache0 : Cache) (ids : List Int)
    (hnd : ids.Nodup) (hpos : ∀ id ∈ ids, 0 < id)
    (hc : ∀ id ∈ ids, usableCacheEntry cache0 id = true) :
    collectNutritionData P cache0 saveErr ids false =
      ⟨{ success := true, totalRecipes := ids.length, fetchedCount := 0,
         skippedCount := ids.length, errorCount := 0,
         missingRecipes := [], errors := [] }, cache0, []⟩ := by
  have hu : uniqueRecipeIds ids = ids := by
    rw [uniqueRecipeIds, dedupFirst, dedupFirstAux_eq_self hnd [] (by simp)]
    apply List.filter_eq_self.mpr
    intro a ha
    exact decide_eq_true (hpos a ha)
  have ht : recipeIdsToFetch cache0 ids false = [] := by
    rw [recipeIdsToFetch]
    simp only [Bool.false_eq_true, if_false]
    rw [hu]
    apply List.filter_eq_nil_iff.mpr
    intro a ha
    have := hc a ha
    rw [usableCacheEntry] at this
    rcases hl : alookup cache0 a with _ | r
    · rw [hl] at this; cases this
    · simp [hl]
  rw [collectNutritionData]
  simp only [ht, hu, List.isEmpty_nil, if_true]

/-- Witness for claim C7: two cached ids, skipped without any fetch. -/
theorem cached_ids_all_skipped_witness :
    collectNutritionData envNotFound [(3, [("Calories", "90")]), (4, [("Fat", "1 g")])]
        none [3, 4] false =
      ⟨{ success := true, totalRecipes := 2, fetchedCount := 0,
         skippedCount := 2, errorCount := 0,
         missingRecipes := [], errors := [] },
       [(3, [("Calories", "90")]), (4, [("Fat", "1 g")])], []⟩ :=
  cached_ids_all_skipped envNotFound none
    [(3, [("Calories", "90")]), (4, [("Fat", "1 g")])] [3, 4]
    (by decide) (by decide) (by decide)

/-- Claim C2, counterexample: with the cache save failing after the
batches, collectNutritionData still returns normally — the outer catch
swallows the failure, records it as a System error entry and reports
success = false — so the claim that the save failure propagates to the
caller is false at this input. -/
theorem save_failure_counterexample :
    (collectNutritionData envNotFound [] (some "upload failed") [7] false).result.success = false ∧
    (collectNutritionData envNotFound [] (some "upload failed") [7] false).result.errors =
      ["System error: upload failed"] ∧
    (collectNutritionData envNotFound [] (some "upload failed") [7] false).result.fetchedCount = 1 ∧
    (collectNutritionData envNotFound [] (some "upload failed") [7] false).result.skippedCount = 0 := by
  refine ⟨?_, ?_, ?_, ?_⟩ <;> decide

/-- Claim C2 (amended): a run of collectNutritionData never raises past
its boundary at all; when saveNutritionCache fails after the batches the
boundary catch swallows the failure: the run returns the partial result
with "System error: message" appended to errors, success = false and
skippedCount = 0, whereas the same run with a successful save carries no
such entry. -/
theorem save_failure_swallowed (P : FetchParams) (cache0 : Cache)
    (ids : List Int) (fr : Bool) (emsg : String)
    (h : recipeIdsToFetch cache0 ids fr ≠ []) :
    (collectNutritionData P cache0 (some emsg) ids fr).result.success = false ∧
    (collectNutritionData P cache0 (some emsg) ids fr).result.skippedCount = 0 ∧
    (collectNutritionData P cache0 (some emsg) ids fr).result.errors =
      (runLoopState P fr (recipeIdsToFetch cache0 ids fr) cache0).errors ++
        ["System error: " ++ emsg] ∧
    (collectNutritionData P cache0 none ids fr).result.errors =
      (runLoopState P fr (recipeIdsToFetch cache0 ids fr) cache0).errors := by
  rw [collect_run_some P cache0 ids fr emsg h, collect_run_none P cache0 ids fr h]
  exact ⟨rfl, rfl, rfl, rfl⟩

/-- Witness for the amended claim C2 at a concrete failing save. -/
theorem save_failure_swallowed_witness :
    (collectNutritionData envNotFound [] (some "upload failed") [7] false).result.success = false ∧
    (collectNutritionData envNotFound [] (some "upload failed") [7] false).result.skippedCount = 0 ∧
    (collectNutritionData envNotFound [] (some "upload failed") [7] false).result.errors =
      (runLoopState envNotFound false (recipeIdsToFetch [] [7] false) []).errors ++
        ["System error: " ++ "upload failed"] ∧
    (collectNutritionData envNotFound [] none [7] false).result.errors =
      (runLoopState envNotFound false (recipeIdsToFetch [] [7] false) []).errors :=
  save_failure_swallowed envNotFound [] [7] false "upload failed" (by decide)

theorem uniqueRecipeIds_filter_pos (ids : List Int) :
    uniqueRecipeIds ids =
      uniqueRecipeIds (ids.filter (fun id => decide (0 < id))) := by
  rw [uniqueRecipeIds, uniqueRecipeIds, dedupFirst, dedupFirst]
  rw [filter_dedupFirstAux]
  have hright : (dedupFirstAux [] (ids.filter (fun id => decide (0 < id)))).filter
      (fun id => decide (0 < id)) =
      dedupFirstAux [] (ids.filter (fun id => decide (0 < id))) := by
    apply List.filter_eq_self.mpr
    intro a ha
    exact (List.mem_filter.mp (mem_dedupFirstAux ha)).2
  rw [hright]
  rfl

theorem recipeIdsToFetch_filter_pos (cache0 : Cache) (ids : List Int) (fr : Bool) :
    recipeIdsToFetch cache0 (ids.filter (fun id => decide (0 < id))) fr =
      recipeIdsToFetch cache0 ids fr := by
  rw [recipeIdsToFetch, recipeIdsToFetch, ← uniqueRecipeIds_filter_pos]

/-- Claim C10: collectNutritionData silently discards non-positive ids
after deduplication — a run over any id list equals the run over its
positive ids only, except that totalRecipes still counts every input
element; in particular a list of only non-positive ids yields
success = true with all of fetchedCount, skippedCount and errorCount
zero, an empty missingRecipes, and no network activity. -/
theorem nonpositive_ids_ignored (P : FetchParams) (cache0 : Cache)
    (saveErr : Option String) (ids : List Int) (fr : Bool) :
    (collectNutritionData P cache0 saveErr ids fr =
      ⟨{ (collectNutritionData P cache0 saveErr
            (ids.filter (fun id => decide (0 < id))) fr).result with
          totalRecipes := ids.length },
        (collectNutritionData P cache0 saveErr
            (ids.filter (fun id => decide (0 < id))) fr).cache,
        (collectNutritionData P cache0 saveErr
            (ids.filter (fun id => decide (0 < id))) fr).attemptsLog⟩) ∧
    ((∀ id ∈ ids, ¬ (0 < id)) →
      collectNutritionData P cache0 saveErr ids fr =
        ⟨{ success := true, totalRecipes := ids.length, fetchedCount := 0,
           skippedCount := 0, errorCount := 0, missingRecipes := [],
           errors := [] }, cache0, []⟩) := by
  constructor
  · rw [collectNutritionData, collectNutritionData]
    rw [recipeIdsToFetch_filter_pos, ← uniqueRecipeIds_filter_pos]
    by_cases hE : (recipeIdsToFetch cache0 ids fr).isEmpty
    · simp only [hE, if_true]
    · simp only [hE, if_false, Bool.false_eq_true]
      rcases saveErr with _ | emsg <;> rfl
  · intro hnp
    have hu : uniqueRecipeIds ids = [] := by
      rw [uniqueRecipeIds]
      apply List.filter_eq_nil_iff.mpr
      intro a ha
      simpa using hnp a (mem_dedupFirstAux ha)
    have ht : recipeIdsToFetch cache0 ids fr = [] := by
      rw [recipeIdsToFetch, hu]
      rcases fr <;> simp
    rw [collectNutritionData]
    simp only [ht, hu, List.isEmpty_nil, if_true, List.length_nil]

/-- Witness for claim C10 over a list of only non-positive ids. -/
theorem nonpositive_ids_ignored_witness :
    (collectNutritionData envNotFound [] none [0, -5] false =
      ⟨{ (collectNutritionData envNotFound [] none
            ([0, -5].filter (fun id => decide (0 < id))) false).result with
          totalRecipes := 2 },
        (collectNutritionData envNotFound [] none
            ([0, -5].filter (fun id => decide (0 < id))) false).cache,
        (collectNutritionData envNotFound [] none
            ([0, -5].filter (fun id => decide (0 < id))) false).attemptsLog⟩) ∧
    ((∀ id ∈ ([0, -5] : List Int), ¬ (0 < id)) →
      collectNutritionData envNotFound [] none [0, -5] false =
        ⟨{ success := true, totalRecipes := 2, fetchedCount := 0,
           skippedCount := 0, errorCount := 0, missingRecipes := [],
           errors := [] }, [], []⟩) :=
  nonpositive_ids_ignored envNotFound [] none [0, -5] false

/-- Claim C6: starting from a cache whose records are all non-empty,
any sequence of fetchNutrition calls — and any full collectNutritionData
run — leaves every record in the cache non-empty, because a fetched
record is written back only when it holds at least one nutrient. -/
theorem cache_never_stores_empty (P : FetchParams) :
    (∀ (calls : List (Int × Nat × Bool)) (c : Cache), CacheOK c →
      CacheOK (fetchSeq P calls c)) ∧
    (∀ (cache0 : Cache) (saveErr : Option String) (ids : List Int) (fr : Bool),
      CacheOK cache0 →
      CacheOK (collectNutritionData P cache0 saveErr ids fr).cache) := by
  constructor
  · intro calls
    induction calls with
    | nil => intro c h; exact h
    | cons call rest ih =>
      intro c h
      show CacheOK (fetchSeq P rest (fetchNutrition P call.1 call.2.1 call.2.2 c).cache)
      refine ih _ ?_
      rcases fetchGas_cache_cases P call.1 call.2.2 (4 - call.2.1) call.2.1 c with
        hc | ⟨r, hr, hc⟩
      · rw [fetchNutrition, hc]; exact h
      · rw [fetchNutrition, hc]; exact CacheOK_objInsert h hr
  · intro cache0 saveErr ids fr h
    rw [collectNutritionData]
    by_cases hE : (recipeIdsToFetch cache0 ids fr).isEmpty
    · simp only [hE, if_true]
      exact h
    · simp only [hE, if_false, Bool.false_eq_true]
      have hrun : CacheOK (runLoopState P fr (recipeIdsToFetch cache0 ids fr) cache0).cache := by
        rw [runLoopState_eq]
        exact processIds_CacheOK P fr (recipeIdsToFetch cache0 ids fr) (initState cache0) h
      rcases saveErr with _ | emsg <;> exact hrun

/-- Witness for claim C6: a direct call sequence and a full run, both
starting from a one-entry cache with a non-empty record. -/
theorem cache_never_stores_empty_witness :
    CacheOK (fetchSeq envNotFound [(5, 0, true)] [(3, [("Calories", "90")])]) ∧
    CacheOK (collectNutritionData envNotFound [(3, [("Calories", "90")])]
      none [5] false).cache := by
  have hck : CacheOK [((3 : Int), [("Calories", "90")])] := by
    intro p hp
    rw [List.mem_singleton] at hp
    rw [hp]
    decide
  exact ⟨(cache_never_stores_empty envNotFound).1 [(5, 0, true)] _ hck,
    (cache_never_stores_empty envNotFound).2 _ none [5] false hck⟩

/-! ### Claims C8 and C9: fetchLocationPage -/

theorem detectPeriods_no_struct (doc : Doc) (location : String)
    (htabs : doc.tabs = [])
    (hhead : ∀ h ∈ doc.headings, jsTrim h = "" ∨ jsIncludes (jsTrim h) "Menu" = true ∨
      jsIncludes (jsTrim h) "Options" = true) :
    detectPeriods doc location = [("default", defaultMealTime location)] := by
  have hfold : ∀ (hs : List String),
      (∀ h ∈ hs, jsTrim h = "" ∨ jsIncludes (jsTrim h) "Menu" = true ∨
        jsIncludes (jsTrim h) "Options" = true) →
      ∀ (i : Nat) (m : List (String × String)),
        (enumIdx i hs).foldl (fun m p =>
          let hh := jsTrim p.2
          if hh ≠ "" ∧ ¬ jsIncludes hh "Menu" ∧ ¬ jsIncludes hh "Options" then
            objInsert m ("section-" ++ toString p.1) hh
          else m) m = m := by
    intro hs
    induction hs with
    | nil => intro _ i m; rfl
    | cons h rest ih =>
      intro hh i m
      rw [enumIdx, List.foldl_cons]
      have hcond : ¬ (jsTrim h ≠ "" ∧ ¬ jsIncludes (jsTrim h) "Menu" ∧
          ¬ jsIncludes (jsTrim h) "Options") := by
        rcases hh h (List.mem_cons_self _ _) with hc | hc | hc
        · intro hk; exact hk.1 hc
        · intro hk; exact hk.2.1 hc
        · intro hk; exact hk.2.2 hc
      rw [if_neg hcond]
      exact ih (fun x hx => hh x (List.mem_cons_of_mem _ hx)) (i + 1) m
  rw [detectPeriods, htabs]
  simp only [List.foldl_nil, List.isEmpty_nil, if_true]
  rw [hfold doc.headings hhead 0 []]
  rfl

theorem defaultMealTime_lunch (location : String)
    (hbrk : jsIncludes location "breakfast" = false)
    (hlun : jsIncludes location "lunch" = true) :
    defaultMealTime location = "Lunch" := by
  rw [defaultMealTime, if_neg (by simp [hbrk]), if_pos hlun]

/-- Claim C9: on every non-error path of fetchLocationPage the result
mapping holds at least one meal period after the main loop — the
detection map always receives the default entry when empty and every
detected period is initialized unconditionally — so the final-fallback
branch guarded by the result being empty is never executed, for any
document. -/
theorem final_fallback_dead (doc : Doc) (location timeFetched rnd : String) :
    mainLoopResult doc location timeFetched rnd ≠ [] ∧
    fetchLocationPage doc location timeFetched rnd =
      mainLoopResult doc location timeFetched rnd := by
  refine ⟨mainLoopResult_ne_nil doc location timeFetched rnd, ?_⟩
  rw [fetchLocationPage]
  rw [if_neg (fun hc => mainLoopResult_ne_nil doc location timeFetched rnd
    (List.isEmpty_iff.mp hc))]

/-- Claim C8: for a document with no tab elements and no qualifying
section headings, extracted for a location identifier containing "lunch"
and not "breakfast", fetchLocationPage produces exactly one meal period,
named Lunch, whose stations together contain every food-item marker of
the whole document. -/
theorem lunch_default_collects_all (doc : Doc)
    (location timeFetched rnd : String)
    (htabs : doc.tabs = [])
    (hhead : ∀ h ∈ doc.headings, jsTrim h = "" ∨ jsIncludes (jsTrim h) "Menu" = true ∨
      jsIncludes (jsTrim h) "Options" = true)
    (hbrk : jsIncludes location "breakfast" = false)
    (hlun : jsIncludes location "lunch" = true) :
    ∃ sts : Stations,
      fetchLocationPage doc location timeFetched rnd = [("Lunch", sts)] ∧
      ∀ it ∈ doc.items,
        stationHas sts (stationName it) (toFoodItem timeFetched it) := by
  have hdet : detectPeriods doc location = [("default", "Lunch")] := by
    rw [detectPeriods_no_struct doc location htabs hhead,
      defaultMealTime_lunch location hbrk hlun]
  have hreg : regionItemsFor doc "default" = doc.items := by
    rw [regionItemsFor]
    rw [if_neg (by simp), if_neg (by decide)]
  rcases foldItems_single "Lunch" timeFetched rnd doc.items [] with
    ⟨sts, hfold, hmem, _⟩
  refine ⟨sts, ?_, hmem⟩
  rw [fetchLocationPage]
  rw [if_neg (fun hc => mainLoopResult_ne_nil doc location timeFetched rnd
    (List.isEmpty_iff.mp hc))]
  rw [mainLoopResult, hdet, List.foldl_cons, List.foldl_nil, processPeriod]
  dsimp only
  rw [hreg]
  exact hfold

/-- Witness for claim C8 at a one-item document with a non-qualifying
heading. -/
theorem lunch_default_collects_all_witness :
    ∃ sts : Stations,
      fetchLocationPage docLunch "leo-lunch" "t0" "r0" = [("Lunch", sts)] ∧
      ∀ it ∈ docLunch.items,
        stationHas sts (stationName it) (toFoodItem "t0" it) :=
  lunch_default_collects_all docLunch "leo-lunch" "t0" "r0" rfl
    (by decide) (by decide) (by decide)
